import Mathlib

set_option autoImplicit false

/-!
Shallow embedding of the CohortCortex rule-based scoring engine
(`src/application.py`, classes `Patient` and `Engine`).

Modelling conventions:
  - Python floats are embedded as `ℚ`; every score produced by the engine is an
    exact small rational (sums of products of `0`/`1`-valued evaluator results,
    weights, and ratios of small integers), so no rounding is involved.
  - Python strings are Lean `String`s; `str.lower()` and `str.strip()` are
    embedded character-wise as `pyLower` and `pyStrip`.
  - Python `set(...)` values are embedded as `Finset String`.
  - The CSV columns `prescriptions`, `prescriptions_poe`, `prescriptions_generic`
    and `icd9_codes` hold string encodings of Python list literals; the embedding
    stores the decoded lists of strings (the decoding itself, `ast.literal_eval`,
    is CSV-schema territory that the engine consumes as given).  For
    `icd9_codes` the source applies `.strip().lower()` to the *serialized* field
    before `ast.literal_eval`: stripping the serialized list touches only the
    outer brackets, and lowering lowercases each decoded code, so on the decoded
    list this is an element-wise `pyLower` with no per-code strip.
  - `patients.sort(key=lambda x: x.score, reverse=True)` (Python's stable sort,
    descending by score) is embedded as `List.mergeSort` with the comparator
    `fun a b => decide (b.score ≤ a.score)`; `mergeSort` is a stable sort, which
    is exactly the guarantee Python's `list.sort` gives.
-/

/-- Python `str.lower()`: per-character lowercasing. -/
def pyLower (s : String) : String := String.mk (s.toList.map Char.toLower)

/-- Python `str.strip()`: remove leading and trailing whitespace. -/
def pyStrip (s : String) : String :=
  String.mk (((s.toList.dropWhile Char.isWhitespace).reverse.dropWhile
    Char.isWhitespace).reverse)

/-- Prefix test `startsWithL needle hay`: `needle` is a prefix of `hay` (as character lists). -/
def startsWithL : List Char → List Char → Bool
  | [], _ => true
  | _ :: _, [] => false
  | a :: as, b :: bs => a == b && startsWithL as bs

/-- Containment test `containsSub needle hay`: `needle` occurs as a contiguous run inside `hay`. -/
def containsSub (needle : List Char) : List Char → Bool
  | [] => needle.isEmpty
  | c :: rest => startsWithL needle (c :: rest) || containsSub needle rest

/-- Python's `needle in hay` substring test on strings. -/
def strContains (needle hay : String) : Bool :=
  containsSub needle.toList hay.toList

/-- One row of the patient CSV, with the list-encoded cells already decoded
(see the module docstring). -/
structure PatientRow where
  subject_id : String
  first_name : String
  last_name : String
  age : Int
  gender : String
  prescriptions : List String
  prescriptions_poe : List String
  prescriptions_generic : List String
  icd9_codes : List String
deriving DecidableEq

/-- The `Patient` class: a row plus its 0-based position in the source table and
the mutable `score` field (default `0.0`). -/
structure Patient where
  patient_index : Nat
  patient_data : PatientRow
  score : ℚ
deriving DecidableEq

/-- A rule object produced by the translator: a `type` tag plus the fields the
engine reads for that tag.  Any `type` string outside the four supported ones
(including `"other"`) matches no branch of the engine's dispatch; those are
collapsed into the `other` constructor, carrying the tag. -/
inductive Rule where
  | age (min max : Option Int)
  | gender (gender : Int)
  | medications (medications : List String)
  | preexisting_conditions (icd9_codes : List String)
  | other (tag : String)
deriving DecidableEq

/-- An entry of `rules["inclusion_criterium"]`: a rule and its weight. -/
structure InclusionCriterium where
  rule : Rule
  weight : ℚ
deriving DecidableEq

/-- The rule document consumed by `Engine`: `inclusion_criterium` and
`exclusion_criterium`, each in document order. -/
structure Rules where
  inclusion_criterium : List InclusionCriterium
  exclusion_criterium : List Rule
deriving DecidableEq

/-- One entry of `self.patient_scores` (a row of `patient_scores.csv`). -/
structure ScoreEntry where
  patient_index : Nat
  subject_id : String
  first_name : String
  last_name : String
  score : ℚ
deriving DecidableEq

/-- One line of `exclusion_reasons.txt`, kept structured: the f-strings in the
source interpolate the patient index, the offending patient attribute and the
criterion; the embedding records those fields instead of the rendered text. -/
inductive ExclusionReason where
  | age (patient_index : Nat) (patient_age : Int) (min max : Option Int)
  | gender (patient_index : Nat) (patient_gender : String) (needed : String)
  | medications (patient_index : Nat) (patient_prescriptions : List String)
      (forbidden : List String)
  | preexisting_conditions (patient_index : Nat) (patient_icd9_codes : List String)
      (forbidden : List String)
deriving DecidableEq

namespace Engine

/-- Evaluator `Engine.age`: `0.0` if `min` is given and the age is below it, `0.0` if
`max` is given and the age is above it, else `1.0`. -/
def age (patient : Patient) (min max : Option Int) : ℚ :=
  let a := patient.patient_data.age
  if min.any (fun m => decide (a < m)) then 0
  else if max.any (fun m => decide (a > m)) then 0
  else 1

/-- Evaluator `Engine.gender`: `0` means male (`'M'`), `1` female (`'F'`), `2` either;
anything else returns `0.0`. -/
def gender (patient : Patient) (gender : Int) : ℚ :=
  if gender == 0 then
    if patient.patient_data.gender == "M" then 1 else 0
  else if gender == 1 then
    if patient.patient_data.gender == "F" then 1 else 0
  else if gender == 2 then 1
  else 0

/-- Evaluator `Engine.medications`: count, over every target and every entry of the three
medication columns, the entries containing the target as a substring (both
sides lowercased and stripped); return `matches / len(medications)`, or `0.0`
for an empty target list.  The running `matches += 1` accumulator is embedded
as nested left folds. -/
def medications (patient : Patient) (medications : List String) : ℚ :=
  let columns := [patient.patient_data.prescriptions,
    patient.patient_data.prescriptions_poe,
    patient.patient_data.prescriptions_generic]
  let numMatches : Nat := medications.foldl (fun acc med =>
    let m := pyStrip (pyLower med)
    columns.foldl (fun acc2 col =>
      col.foldl (fun acc3 patient_med =>
        if strContains m (pyStrip (pyLower patient_med)) then acc3 + 1 else acc3)
        acc2) acc) 0
  let total := medications.length
  if total > 0 then (numMatches : ℚ) / (total : ℚ) else 0

/-- Evaluator `Engine.preexisting_conditions`: build the set of the patient's codes (the
serialized field is stripped and lowered before `ast.literal_eval`, i.e. each
decoded code is lowercased but not individually stripped) and the set of the
study's codes (each `.strip().lower()`-ed), and return
`|intersection| / |study set|`, or `0.0` when the study set is empty. -/
def preexisting_conditions (patient : Patient) (study_icd9_codes : List String) : ℚ :=
  let patient_codes : Finset String :=
    (patient.patient_data.icd9_codes.map pyLower).toFinset
  let study_codes : Finset String :=
    (study_icd9_codes.map (fun x => pyLower (pyStrip x))).toFinset
  let set_diff := patient_codes ∩ study_codes
  if study_codes.card > 0 then (set_diff.card : ℚ) / (study_codes.card : ℚ) else 0

/-- The inclusion loop of `Engine.sort_patients` (source lines 203–219): fold
over `inclusion_criterium` in document order, adding `evaluator * weight` for
the four recognized rule types and leaving the score unchanged otherwise. -/
def applyInclusion (patient : Patient) : List InclusionCriterium → ℚ → ℚ
  | [], score => score
  | c :: rest, score =>
    let score' :=
      match c.rule with
      | .age mn mx => score + age patient mn mx * c.weight
      | .gender g => score + gender patient g * c.weight
      | .medications meds => score + medications patient meds * c.weight
      | .preexisting_conditions codes =>
          score + preexisting_conditions patient codes * c.weight
      | .other _ => score
    applyInclusion patient rest score'

/-- The exclusion loop of `Engine.sort_patients` (source lines 221–251): walk
`exclusion_criterium` in document order; on the first violation (`== 0.0` for
age/gender, `> 0.0` for medications/preexisting conditions) zero the score,
emit the reason, and `break`; unrecognized rule types match no branch. -/
def applyExclusion (patient : Patient) : List Rule → Patient × Option ExclusionReason
  | [] => (patient, none)
  | rule :: rest =>
    match rule with
    | .age mn mx =>
      if age patient mn mx = 0 then
        ({ patient with score := 0 },
         some (.age patient.patient_index patient.patient_data.age mn mx))
      else applyExclusion patient rest
    | .gender g =>
      if gender patient g = 0 then
        ({ patient with score := 0 },
         some (.gender patient.patient_index patient.patient_data.gender
           (if g == 0 then "M" else "F")))
      else applyExclusion patient rest
    | .medications meds =>
      if medications patient meds > 0 then
        ({ patient with score := 0 },
         some (.medications patient.patient_index
           patient.patient_data.prescriptions meds))
      else applyExclusion patient rest
    | .preexisting_conditions codes =>
      if preexisting_conditions patient codes > 0 then
        ({ patient with score := 0 },
         some (.preexisting_conditions patient.patient_index
           patient.patient_data.icd9_codes codes))
      else applyExclusion patient rest
    | .other _ => applyExclusion patient rest

/-- The per-patient body of the scoring loop: inclusion sum, score assignment,
exclusion pass, and the `self.patient_scores.append({...})` record. -/
def scoreOne (rules : Rules) (patient : Patient) :
    Patient × ScoreEntry × Option ExclusionReason :=
  let s := applyInclusion patient rules.inclusion_criterium 0
  let scored := { patient with score := s }
  let (final, reason) := applyExclusion scored rules.exclusion_criterium
  (final,
   { patient_index := final.patient_index,
     subject_id := final.patient_data.subject_id,
     first_name := final.patient_data.first_name,
     last_name := final.patient_data.last_name,
     score := final.score },
   reason)

/-- Source lines 197–199: each row becomes a `Patient` keyed by its 0-based
position, with score `0.0`. -/
def mkPatients (rows : List PatientRow) : List Patient :=
  rows.enum.map (fun p => { patient_index := p.1, patient_data := p.2, score := 0 })

/-- The engine entry point `Engine.sort_patients`, on an in-memory table: score every patient in
ingestion order, collect the score log (one entry per patient, ingestion
order) and the exclusion log (the lines written to `exclusion_reasons.txt`,
ingestion order), and return the patients stably sorted by score descending
together with both logs. -/
def sort_patients (rules : Rules) (rows : List PatientRow) :
    List Patient × List ScoreEntry × List ExclusionReason :=
  let patients := mkPatients rows
  let results := patients.map (scoreOne rules)
  let sorted := (results.map (fun r => r.1)).mergeSort
    (fun a b => decide (b.score ≤ a.score))
  (sorted, results.map (fun r => r.2.1), results.filterMap (fun r => r.2.2))

/-- The error message surfaced when the score-CSV write fails. -/
def csvWriteError : String := "I/O error while writing patient_scores.csv"

/-- Source lines 264–267: with a log folder configured, `scores_df.to_csv`
runs after the sort; a raised I/O error propagates out of `sort_patients`
before `return patients`.  `writeOk` abstracts whether the write succeeds. -/
def writeScoresCsv (writeOk : Bool) : Except String Unit :=
  if writeOk then .ok () else .error csvWriteError

/-- The tail of `Engine.sort_patients` including the log write: compute the
results, then (when a log folder is configured) perform the fallible CSV
write, then return.  A write failure surfaces as `Except.error` and the
already-computed results are not returned (the Python exception propagates
before the `return patients` statement). -/
def sort_patients_io (rules : Rules) (rows : List PatientRow)
    (log_folder writeOk : Bool) :
    Except String (List Patient × List ScoreEntry × List ExclusionReason) := do
  let results := sort_patients rules rows
  if log_folder then
    writeScoresCsv writeOk
  return results

end Engine

/-! ### Claim-side (specification) definitions

These follow the wording of the specification, to be related to the engine
definitions above by the claim theorems. -/

/-- The value an inclusion rule contributes before weighting, as the spec
describes it: the evaluator's value for the four supported types, `0.0` for an
unsupported type. -/
def ruleValue (patient : Patient) : Rule → ℚ
  | .age mn mx => Engine.age patient mn mx
  | .gender g => Engine.gender patient g
  | .medications meds => Engine.medications patient meds
  | .preexisting_conditions codes => Engine.preexisting_conditions patient codes
  | .other _ => 0

/-- The spec's inclusion score: the sum, over the inclusion entries in document
order, of evaluator value times weight, starting from `0.0`. -/
def inclusionSum (rules : Rules) (patient : Patient) : ℚ :=
  (rules.inclusion_criterium.map (fun c => ruleValue patient c.rule * c.weight)).sum

/-- The spec's violation predicate for an exclusion rule: age/gender rules are
violated exactly when the evaluator returns `0.0`, medications/preexisting
conditions rules exactly when it returns a value greater than `0.0`, and
unsupported rule types never. -/
def violates (patient : Patient) : Rule → Bool
  | .age mn mx => decide (Engine.age patient mn mx = 0)
  | .gender g => decide (Engine.gender patient g = 0)
  | .medications meds => decide (Engine.medications patient meds > 0)
  | .preexisting_conditions codes =>
      decide (Engine.preexisting_conditions patient codes > 0)
  | .other _ => false

/-- The exclusion-log line a given rule produces for a given patient (none for
an unsupported rule type, which never logs). -/
def reasonFor (patient : Patient) : Rule → Option ExclusionReason
  | .age mn mx =>
      some (.age patient.patient_index patient.patient_data.age mn mx)
  | .gender g =>
      some (.gender patient.patient_index patient.patient_data.gender
        (if g == 0 then "M" else "F"))
  | .medications meds =>
      some (.medications patient.patient_index
        patient.patient_data.prescriptions meds)
  | .preexisting_conditions codes =>
      some (.preexisting_conditions patient.patient_index
        patient.patient_data.icd9_codes codes)
  | .other _ => none

/-- The spec's final score for a patient: `0.0` if some exclusion rule is
violated, otherwise the weighted inclusion sum. -/
def finalScore (rules : Rules) (patient : Patient) : ℚ :=
  if rules.exclusion_criterium.any (violates patient) then 0
  else inclusionSum rules patient

/-- The spec's score-log row for a patient. -/
def scoreEntryOf (rules : Rules) (patient : Patient) : ScoreEntry :=
  { patient_index := patient.patient_index,
    subject_id := patient.patient_data.subject_id,
    first_name := patient.patient_data.first_name,
    last_name := patient.patient_data.last_name,
    score := finalScore rules patient }

/-- Rule types outside the four supported evaluators. -/
def isOther : Rule → Bool
  | .other _ => true
  | _ => false

/-- Erase every unsupported-type entry from a rule document. -/
def stripOther (rules : Rules) : Rules :=
  { inclusion_criterium := rules.inclusion_criterium.filter (fun c => ! isOther c.rule),
    exclusion_criterium := rules.exclusion_criterium.filter (fun r => ! isOther r) }

/-- Medications / preexisting-conditions rules with an empty target list. -/
def hasEmptyTargets : Rule → Bool
  | .medications [] => true
  | .preexisting_conditions [] => true
  | _ => false

/-- The spec's description of the medications match count: for every target,
every occurrence across the three medication columns of an entry containing
the target as a substring, after lowercasing and stripping both sides. -/
def medMatchCount (patient : Patient) (meds : List String) : Nat :=
  (meds.map (fun med =>
    (([patient.patient_data.prescriptions,
       patient.patient_data.prescriptions_poe,
       patient.patient_data.prescriptions_generic].map (fun col =>
      (col.filter (fun e =>
        strContains (pyStrip (pyLower med)) (pyStrip (pyLower e)))).length)).sum))).sum

/-- C6's description of the preexisting-conditions evaluator: the patient's
string-encoded ICD-9 list parsed into a set of lowercase, **trimmed** codes
(each individual code stripped), compared against the set of lowercase,
trimmed study codes, returning `|intersection| / |study codes|`. -/
def preexisting_conditions_claim (patient : Patient)
    (study_icd9_codes : List String) : ℚ :=
  let patient_codes : Finset String :=
    (patient.patient_data.icd9_codes.map (fun x => pyLower (pyStrip x))).toFinset
  let study_codes : Finset String :=
    (study_icd9_codes.map (fun x => pyLower (pyStrip x))).toFinset
  let set_diff := patient_codes ∩ study_codes
  if study_codes.card > 0 then (set_diff.card : ℚ) / (study_codes.card : ℚ) else 0

/-! ### Concrete inputs used by the testable-property parts of the claims -/

/-- A patient row with every field neutral; concrete examples override fields. -/
def blankRow : PatientRow :=
  { subject_id := "0", first_name := "A", last_name := "B", age := 0,
    gender := "F", prescriptions := [], prescriptions_poe := [],
    prescriptions_generic := [], icd9_codes := [] }

/-- A patient of the given age (C4's age-boundary examples). -/
def agePatient (a : Int) : Patient :=
  { patient_index := 0, patient_data := { blankRow with age := a }, score := 0 }

/-- C3's example patient: medication field with entries `"furosemide"`,
`"furosemide iv"` and `"insulin furosemide"`. -/
def furoPatient : Patient :=
  { patient_index := 0,
    patient_data := { blankRow with
      prescriptions := ["furosemide", "furosemide iv", "insulin furosemide"] },
    score := 0 }

/-- C6's example patient: ICD-9 codes `401.9` and `272.4`. -/
def icd9Patient : Patient :=
  { patient_index := 0,
    patient_data := { blankRow with icd9_codes := ["401.9", "272.4"] },
    score := 0 }

/-- C6's counterexample patient: a decoded ICD-9 code carrying a leading
space inside the quoted list element (`"[' 401.9']"` in the CSV cell). -/
def paddedIcd9Patient : Patient :=
  { patient_index := 0,
    patient_data := { blankRow with icd9_codes := [" 401.9"] },
    score := 0 }

/-- A one-row patient table for exercising a whole run: a 60-year-old. -/
def wRow : PatientRow := { blankRow with age := 60 }

/-- A rule document with one weighted inclusion rule and no exclusions. -/
def wRules : Rules :=
  { inclusion_criterium := [{ rule := .age (some 50) none, weight := 1 }],
    exclusion_criterium := [] }

/-- The patient `wRow` becomes after the run: index 0, final score `1.0`. -/
def wPatient : Patient :=
  { patient_index := 0, patient_data := wRow, score := 1 }

/-- The list of patients after the scoring loop and before the sort (spec
side): every patient carries its final score, in ingestion order. -/
def scoredPatients (rules : Rules) (rows : List PatientRow) : List Patient :=
  (Engine.mkPatients rows).map (fun p => { p with score := finalScore rules p })

/-! ### Helper lemmas -/

/-- A left fold that conditionally increments is the filtered length. -/
theorem foldl_count_eq {α : Type} (p : α → Bool) :
    ∀ (l : List α) (n : Nat),
      l.foldl (fun a e => if p e then a + 1 else a) n = n + (l.filter p).length
  | [], n => by simp
  | x :: xs, n => by
    by_cases h : p x <;>
      simp [List.foldl_cons, h, foldl_count_eq p xs, List.filter_cons] <;> omega

/-- Folding the conditional counter over a list of columns sums the filtered
lengths. -/
theorem foldl_count_cols_eq {α : Type} (p : α → Bool) :
    ∀ (cols : List (List α)) (n : Nat),
      cols.foldl (fun acc col =>
          col.foldl (fun a e => if p e then a + 1 else a) acc) n
        = n + (cols.map (fun col => (col.filter p).length)).sum
  | [], n => by simp
  | c :: cs, n => by
    simp [List.foldl_cons, foldl_count_eq p c, foldl_count_cols_eq p cs]
    omega

/-- A left fold whose step adds a function of the element is the sum of that
function over the list. -/
theorem foldl_add_eq {α : Type} (f : α → Nat) (g : Nat → α → Nat)
    (hg : ∀ n x, g n x = n + f x) :
    ∀ (l : List α) (n : Nat), l.foldl g n = n + (l.map f).sum
  | [], n => by simp
  | x :: xs, n => by
    simp [List.foldl_cons, hg, foldl_add_eq f g hg xs]
    omega

/-- The medications evaluator is the ratio of the spec's match count to the
number of targets (`0` on an empty target list). -/
theorem medications_eq (p : Patient) (meds : List String) :
    Engine.medications p meds
      = if meds.length > 0 then (medMatchCount p meds : ℚ) / (meds.length : ℚ)
        else 0 := by
  simp only [Engine.medications]
  rw [foldl_add_eq
    (fun med =>
      (([p.patient_data.prescriptions, p.patient_data.prescriptions_poe,
         p.patient_data.prescriptions_generic].map (fun col =>
        (col.filter (fun e =>
          strContains (pyStrip (pyLower med)) (pyStrip (pyLower e)))).length)).sum))
    _ (fun n med => foldl_count_cols_eq _ _ n) meds 0]
  simp [medMatchCount]

/-- The preexisting-conditions evaluator always lies in `[0, 1]`. -/
theorem preexisting_conditions_bounds (p : Patient) (codes : List String) :
    0 ≤ Engine.preexisting_conditions p codes ∧
      Engine.preexisting_conditions p codes ≤ 1 := by
  simp only [Engine.preexisting_conditions]
  set P := (p.patient_data.icd9_codes.map pyLower).toFinset
  set S := (codes.map (fun x => pyLower (pyStrip x))).toFinset
  by_cases h : S.card > 0
  · simp only [h, if_pos]
    constructor
    · positivity
    · rw [div_le_one (by exact_mod_cast h)]
      exact_mod_cast Finset.card_le_card (Finset.inter_subset_right)
  · simp [h]

/-- Bridging lemma: `List.any` agrees with `isSome` of `List.find?`. -/
theorem any_eq_find?_isSome {α : Type} (q : α → Bool) :
    ∀ l : List α, l.any q = (l.find? q).isSome
  | [] => rfl
  | x :: xs => by
    by_cases h : q x <;>
      simp [List.any_cons, List.find?_cons, h, any_eq_find?_isSome q xs]

/-- Updating a patient's score changes no evaluator input, so the violation
predicate is unchanged. -/
theorem violates_update (p : Patient) (s : ℚ) :
    violates { p with score := s } = violates p := by
  funext r
  cases r <;> rfl

/-- Updating a patient's score leaves the exclusion-log line unchanged. -/
theorem reasonFor_update (p : Patient) (s : ℚ) :
    reasonFor { p with score := s } = reasonFor p := by
  funext r
  cases r <;> rfl

/-- Updating a patient's score leaves every rule's evaluator value unchanged. -/
theorem ruleValue_update (p : Patient) (s : ℚ) :
    ruleValue { p with score := s } = ruleValue p := by
  funext r
  cases r <;> rfl

/-- The inclusion loop accumulates exactly the spec's weighted sum. -/
theorem applyInclusion_eq (p : Patient) :
    ∀ (l : List InclusionCriterium) (s : ℚ),
      Engine.applyInclusion p l s
        = s + (l.map (fun c => ruleValue p c.rule * c.weight)).sum
  | [], s => by simp [Engine.applyInclusion]
  | c :: rest, s => by
    obtain ⟨r, w⟩ := c
    cases r <;>
      simp [Engine.applyInclusion, applyInclusion_eq p rest, ruleValue] <;> ring

/-- The exclusion loop is first-match: it zeroes the score and logs the reason
of the first rule (in document order) that `violates` the patient, and does
nothing when no rule does. -/
theorem applyExclusion_eq (p : Patient) :
    ∀ l : List Rule,
      Engine.applyExclusion p l
        = ((l.find? (violates p)).elim p (fun _ => { p with score := 0 }),
           (l.find? (violates p)).bind (reasonFor p))
  | [] => rfl
  | r :: rest => by
    cases r with
    | age mn mx =>
      by_cases h : Engine.age p mn mx = 0 <;>
        simp [Engine.applyExclusion, List.find?_cons, violates, h,
          applyExclusion_eq p rest, reasonFor]
    | gender g =>
      by_cases h : Engine.gender p g = 0 <;>
        simp [Engine.applyExclusion, List.find?_cons, violates, h,
          applyExclusion_eq p rest, reasonFor]
    | medications meds =>
      by_cases h : Engine.medications p meds > 0 <;>
        simp [Engine.applyExclusion, List.find?_cons, violates, h,
          applyExclusion_eq p rest, reasonFor]
    | preexisting_conditions codes =>
      by_cases h : Engine.preexisting_conditions p codes > 0 <;>
        simp [Engine.applyExclusion, List.find?_cons, violates, h,
          applyExclusion_eq p rest, reasonFor]
    | other t =>
      simp [Engine.applyExclusion, List.find?_cons, violates,
        applyExclusion_eq p rest]

/-- The per-patient step produces the spec's final score, the spec's score-log
row, and the spec's (optional) exclusion reason. -/
theorem scoreOne_eq (rules : Rules) (p : Patient) :
    Engine.scoreOne rules p
      = ({ p with score := finalScore rules p },
         scoreEntryOf rules p,
         (rules.exclusion_criterium.find? (violates p)).bind (reasonFor p)) := by
  simp only [Engine.scoreOne, applyInclusion_eq, zero_add, applyExclusion_eq,
    violates_update, reasonFor_update]
  rcases hf : rules.exclusion_criterium.find? (violates p) with _ | r
  · have hs : finalScore rules p = inclusionSum rules p := by
      simp [finalScore, any_eq_find?_isSome, hf]
    simp [hs, scoreEntryOf, inclusionSum]
  · have hs : finalScore rules p = 0 := by
      simp [finalScore, any_eq_find?_isSome, hf]
    simp [hs, scoreEntryOf]

/-- Componentwise description of `sort_patients`: the stable descending sort of the scored
patients, the score log over ingestion order, and the first-match exclusion
log over ingestion order. -/
theorem sort_patients_eq (rules : Rules) (rows : List PatientRow) :
    Engine.sort_patients rules rows
      = ((scoredPatients rules rows).mergeSort (fun a b => decide (b.score ≤ a.score)),
         (Engine.mkPatients rows).map (scoreEntryOf rules),
         (Engine.mkPatients rows).filterMap (fun p =>
           (rules.exclusion_criterium.find? (violates p)).bind (reasonFor p))) := by
  simp only [Engine.sort_patients, List.map_map, List.filterMap_map, scoredPatients]
  congr 1 <;> [skip; congr 1] <;>
    simp [Function.comp_def, scoreOne_eq]

/-- The score update in the scoring loop does not change the inclusion sum. -/
theorem inclusionSum_update (rules : Rules) (p : Patient) (s : ℚ) :
    inclusionSum rules { p with score := s } = inclusionSum rules p := by
  simp [inclusionSum, ruleValue_update]

/-- Rules the `stripOther` filter drops never violate. -/
theorem violates_of_not_other (p : Patient) :
    ∀ r : Rule, (! isOther r) = false → violates p r = false := by
  intro r hr
  cases r with
  | other t => rfl
  | age mn mx => simp [isOther] at hr
  | gender g => simp [isOther] at hr
  | medications meds => simp [isOther] at hr
  | preexisting_conditions codes => simp [isOther] at hr

/-- Rules the empty-target filter drops never violate: both evaluators return
`0` on an empty target list, and these rule types need a value above `0`. -/
theorem violates_of_emptyTargets (p : Patient) :
    ∀ r : Rule, (! hasEmptyTargets r) = false → violates p r = false := by
  intro r hr
  cases r with
  | age mn mx => simp [hasEmptyTargets] at hr
  | gender g => simp [hasEmptyTargets] at hr
  | other t => simp [hasEmptyTargets] at hr
  | medications meds =>
    cases meds with
    | nil => rfl
    | cons x xs => simp [hasEmptyTargets] at hr
  | preexisting_conditions codes =>
    cases codes with
    | nil => rfl
    | cons x xs => simp [hasEmptyTargets] at hr

/-- Filtering out rules that never violate does not change the first violated
rule. -/
theorem find?_violates_filter (p : Patient) (q : Rule → Bool)
    (hq : ∀ r, q r = false → violates p r = false) :
    ∀ l : List Rule, (l.filter q).find? (violates p) = l.find? (violates p)
  | [] => rfl
  | r :: rest => by
    by_cases hqr : q r = true
    · by_cases hv : violates p r = true <;>
        simp [List.filter_cons, hqr, List.find?_cons, hv,
          find?_violates_filter p q hq rest]
    · have hv := hq r (by simpa using hqr)
      simp [List.filter_cons, hqr, List.find?_cons, hv,
        find?_violates_filter p q hq rest]

/-- Filtering out rules that never violate does not change the exclusion
pass. -/
theorem applyExclusion_filter (p : Patient) (q : Rule → Bool)
    (hq : ∀ r, q r = false → violates p r = false) (l : List Rule) :
    Engine.applyExclusion p (l.filter q) = Engine.applyExclusion p l := by
  rw [applyExclusion_eq, applyExclusion_eq, find?_violates_filter p q hq l]

/-- Dropping unsupported-type exclusion entries changes nothing. -/
theorem applyExclusion_filter_other (p : Patient) (l : List Rule) :
    Engine.applyExclusion p (l.filter (fun r => ! isOther r))
      = Engine.applyExclusion p l :=
  applyExclusion_filter p _ (violates_of_not_other p) l

/-- Dropping empty-target medications/preexisting-conditions exclusion entries
changes nothing. -/
theorem applyExclusion_filter_emptyTargets (p : Patient) (l : List Rule) :
    Engine.applyExclusion p (l.filter (fun r => ! hasEmptyTargets r))
      = Engine.applyExclusion p l :=
  applyExclusion_filter p _ (violates_of_emptyTargets p) l

/-- Dropping unsupported-type inclusion entries changes nothing: they fall
through every branch of the dispatch and leave the score unchanged. -/
theorem applyInclusion_filter_other (p : Patient) :
    ∀ (l : List InclusionCriterium) (s : ℚ),
      Engine.applyInclusion p (l.filter (fun c => ! isOther c.rule)) s
        = Engine.applyInclusion p l s
  | [], s => rfl
  | c :: rest, s => by
    obtain ⟨r, w⟩ := c
    cases r with
    | age mn mx =>
      rw [List.filter_cons_of_pos (by rfl)]
      simp only [Engine.applyInclusion]
      exact applyInclusion_filter_other p rest _
    | gender g =>
      rw [List.filter_cons_of_pos (by rfl)]
      simp only [Engine.applyInclusion]
      exact applyInclusion_filter_other p rest _
    | medications meds =>
      rw [List.filter_cons_of_pos (by rfl)]
      simp only [Engine.applyInclusion]
      exact applyInclusion_filter_other p rest _
    | preexisting_conditions codes =>
      rw [List.filter_cons_of_pos (by rfl)]
      simp only [Engine.applyInclusion]
      exact applyInclusion_filter_other p rest _
    | other t =>
      rw [List.filter_cons_of_neg (by simp [isOther])]
      simp only [Engine.applyInclusion]
      exact applyInclusion_filter_other p rest _

/-- Erasing every unsupported-type rule from the document leaves the whole run
unchanged: same scores, same ranked output, same logs. -/
theorem sort_patients_stripOther (rules : Rules) (rows : List PatientRow) :
    Engine.sort_patients (stripOther rules) rows = Engine.sort_patients rules rows := by
  have hone : Engine.scoreOne (stripOther rules) = Engine.scoreOne rules := by
    funext p
    simp only [Engine.scoreOne, stripOther, applyInclusion_filter_other,
      applyExclusion_filter_other]
  simp [Engine.sort_patients, hone]

/-- Erasing empty-target medications/preexisting-conditions exclusion entries
leaves the whole run unchanged. -/
theorem sort_patients_filter_emptyTargets (rules : Rules) (rows : List PatientRow) :
    Engine.sort_patients
        { rules with exclusion_criterium :=
            rules.exclusion_criterium.filter (fun r => ! hasEmptyTargets r) } rows
      = Engine.sort_patients rules rows := by
  have hone : Engine.scoreOne
      { rules with exclusion_criterium :=
          rules.exclusion_criterium.filter (fun r => ! hasEmptyTargets r) }
      = Engine.scoreOne rules := by
    funext p
    simp only [Engine.scoreOne, applyExclusion_filter_emptyTargets]
  simp [Engine.sort_patients, hone]

/-- The patient indices assigned at ingestion are `0, 1, 2, …`. -/
theorem mkPatients_index_map (rows : List PatientRow) :
    (Engine.mkPatients rows).map (fun p => p.patient_index)
      = List.range rows.length := by
  simp only [Engine.mkPatients, List.map_map, Function.comp_def]
  have h : (fun x : Nat × PatientRow => x.1) = Prod.fst := rfl
  rw [h, List.enum_map_fst]

/-! ### Claim theorems -/

/-- C2: For every patient, exclusion rules are checked in document order and
checking stops at the first violating rule — age/gender rules are violated
exactly when their evaluator returns `0.0`, medications/preexisting-conditions
rules exactly when it returns a value strictly greater than `0.0` (that is
what `violates` states) — and an excluded patient produces exactly one
exclusion-log line, built from that first violated rule, even if later
exclusion rules would also match. -/
theorem exclusion_first_match_spec (rules : Rules) (rows : List PatientRow) :
    (Engine.sort_patients rules rows).2.2
      = (Engine.mkPatients rows).filterMap (fun p =>
          (rules.exclusion_criterium.find? (violates p)).bind (reasonFor p)) := by
  rw [sort_patients_eq]

/-- C3: The medications evaluator returns `matches / len(targets)` where
`matches` counts, for every target, every occurrence across the three
medication-list fields of an entry containing the target as a substring after
lowercasing and trimming both sides; the ratio is not clamped and can exceed
`1.0`, it returns `0.0` on an empty target list, and on the furosemide example
the match count is `3` and the score `3.0`. -/
theorem medications_ratio_spec (p : Patient) (meds : List String) :
    Engine.medications p meds
        = (if meds.length > 0 then (medMatchCount p meds : ℚ) / (meds.length : ℚ)
           else 0) ∧
    Engine.medications p [] = 0 ∧
    medMatchCount furoPatient ["furosemide"] = 3 ∧
    Engine.medications furoPatient ["furosemide"] = 3 ∧
    (1 : ℚ) < Engine.medications furoPatient ["furosemide"] := by
  have h3 : Engine.medications furoPatient ["furosemide"] = 3 := by
    rw [medications_eq]
    rw [show medMatchCount furoPatient ["furosemide"] = 3 from by decide]
    norm_num
  refine ⟨medications_eq p meds, rfl, by decide, h3, ?_⟩
  rw [h3]
  norm_num

/-- C4: The age evaluator returns `0.0` when a given `min` exceeds the
patient's age or a given `max` is below it, and `1.0` otherwise (so with both
bounds absent it is `1.0` for any age); with `{min: 58, max: 70}` ages 57, 58,
70 and 71 give `0.0`, `1.0`, `1.0`, `0.0`. -/
theorem age_rule_spec (p : Patient) (mn mx : Option Int) :
    (Engine.age p mn mx = 0 ∨ Engine.age p mn mx = 1) ∧
    (Engine.age p mn mx = 0 ↔
      (∃ m ∈ mn, p.patient_data.age < m) ∨ (∃ m ∈ mx, m < p.patient_data.age)) ∧
    Engine.age p none none = 1 ∧
    Engine.age (agePatient 57) (some 58) (some 70) = 0 ∧
    Engine.age (agePatient 58) (some 58) (some 70) = 1 ∧
    Engine.age (agePatient 70) (some 58) (some 70) = 1 ∧
    Engine.age (agePatient 71) (some 58) (some 70) = 0 := by
  refine ⟨?_, ?_, rfl, by decide, by decide, by decide, by decide⟩
  · simp only [Engine.age]
    split_ifs <;> simp
  · cases mn <;> cases mx <;> simp [Engine.age] <;> omega

/-- C6 counterexample: the evaluator does not parse the patient's field into a
set of lowercase **trimmed** codes.  For the CSV cell `"[' 401.9']"` (one code
with a leading space inside the quotes) scored against study codes
`["401.9"]`, the engine keeps the padding on the patient side and returns `0`,
while the claim's formula trims it and returns `1`. -/
theorem preexisting_claim_counterexample :
    Engine.preexisting_conditions paddedIcd9Patient ["401.9"]
      ≠ preexisting_conditions_claim paddedIcd9Patient ["401.9"] := by
  have h1 : Engine.preexisting_conditions paddedIcd9Patient ["401.9"] = 0 := by
    simp only [Engine.preexisting_conditions]
    rw [show ((paddedIcd9Patient.patient_data.icd9_codes.map pyLower).toFinset
        ∩ ((["401.9"] : List String).map (fun x => pyLower (pyStrip x))).toFinset).card
        = 0 from by decide]
    simp
  have h2 : preexisting_conditions_claim paddedIcd9Patient ["401.9"] = 1 := by
    simp only [preexisting_conditions_claim]
    rw [show ((paddedIcd9Patient.patient_data.icd9_codes.map
          (fun x => pyLower (pyStrip x))).toFinset
        ∩ ((["401.9"] : List String).map (fun x => pyLower (pyStrip x))).toFinset).card
        = 1 from by decide]
    rw [show (((["401.9"] : List String).map (fun x => pyLower (pyStrip x))).toFinset).card
        = 1 from by decide]
    norm_num
  rw [h1, h2]
  norm_num

/-- C6 (amended): the preexisting-conditions evaluator parses the patient's
string-encoded ICD-9 list into a set of lowercase codes (the whole serialized
field is trimmed and lowercased before parsing, so individual codes are
lowercased but not trimmed), compares it against the set of lowercase,
trimmed study codes, and returns `|intersection| / |study codes|` (`0.0` when
the study set is empty); the result is always in `[0.0, 1.0]`, and patient
codes `{"401.9","272.4"}` against study codes `["401.9","250.0"]` yield
`0.5`. -/
theorem preexisting_conditions_amended (p : Patient) (codes : List String) :
    Engine.preexisting_conditions p codes
      = (if ((codes.map (fun x => pyLower (pyStrip x))).toFinset).card > 0
         then (((p.patient_data.icd9_codes.map pyLower).toFinset
                ∩ (codes.map (fun x => pyLower (pyStrip x))).toFinset).card : ℚ)
              / (((codes.map (fun x => pyLower (pyStrip x))).toFinset).card : ℚ)
         else 0) ∧
    0 ≤ Engine.preexisting_conditions p codes ∧
    Engine.preexisting_conditions p codes ≤ 1 ∧
    Engine.preexisting_conditions icd9Patient ["401.9", "250.0"] = 0.5 := by
  refine ⟨rfl, (preexisting_conditions_bounds p codes).1,
    (preexisting_conditions_bounds p codes).2, ?_⟩
  simp only [Engine.preexisting_conditions]
  rw [show ((icd9Patient.patient_data.icd9_codes.map pyLower).toFinset
      ∩ ((["401.9", "250.0"] : List String).map (fun x => pyLower (pyStrip x))).toFinset).card
      = 1 from by decide]
  rw [show (((["401.9", "250.0"] : List String).map (fun x => pyLower (pyStrip x))).toFinset).card
      = 2 from by decide]
  norm_num

/-- C7: A rule document containing entries of type `other` (or any type
outside the four evaluators) cannot make the run fail: erasing all such
entries changes nothing about the run, an `other` inclusion entry adds
exactly `0.0`, and an `other` exclusion entry invokes no evaluator and never
triggers exclusion. -/
theorem other_rules_ignored (rules : Rules) (rows : List PatientRow)
    (p : Patient) (t : String) (w : ℚ) (s : ℚ)
    (restInc : List InclusionCriterium) (rest : List Rule) :
    Engine.sort_patients (stripOther rules) rows = Engine.sort_patients rules rows ∧
    Engine.applyInclusion p ({ rule := .other t, weight := w } :: restInc) s
      = Engine.applyInclusion p restInc s ∧
    Engine.applyExclusion p (.other t :: rest) = Engine.applyExclusion p rest ∧
    ruleValue p (.other t) = 0 ∧
    violates p (.other t) = false :=
  ⟨sort_patients_stripOther rules rows, rfl, rfl, rfl, rfl⟩

/-- C8: A score-log entry is recorded for every patient regardless of
inclusion/exclusion outcome — the log is the per-patient map of
`{patient_index, subject_id, first_name, last_name, score}` over the patients
in ingestion order (independent of the returned ranking), so its indices are
exactly `0, 1, …, n-1`. -/
theorem score_log_spec (rules : Rules) (rows : List PatientRow) :
    (Engine.sort_patients rules rows).2.1
      = (Engine.mkPatients rows).map (scoreEntryOf rules) ∧
    ((Engine.sort_patients rules rows).2.1).map (fun e => e.patient_index)
      = List.range rows.length := by
  rw [sort_patients_eq]
  refine ⟨rfl, ?_⟩
  simp only [List.map_map]
  have h : ((fun e : ScoreEntry => e.patient_index) ∘ scoreEntryOf rules)
      = fun p : Patient => p.patient_index := rfl
  rw [h, mkPatients_index_map]

/-- C9 counterexample: when the score-CSV write fails at the end of a run, the
engine does **not** return the computed ranking — the error propagates before
`return patients`, so the caller gets the error and no results. -/
theorem log_write_failure_counterexample :
    Engine.sort_patients_io { inclusion_criterium := [], exclusion_criterium := [] }
        [blankRow] true false
      = Except.error Engine.csvWriteError ∧
    Engine.sort_patients_io { inclusion_criterium := [], exclusion_criterium := [] }
        [blankRow] true false
      ≠ Except.ok (Engine.sort_patients
          { inclusion_criterium := [], exclusion_criterium := [] } [blankRow]) := by
  refine ⟨rfl, ?_⟩
  intro h
  rw [show Engine.sort_patients_io
      { inclusion_criterium := [], exclusion_criterium := [] } [blankRow] true false
      = Except.error Engine.csvWriteError from rfl] at h
  exact Except.noConfusion h

/-- C9 (amended): an I/O failure while writing the logs is surfaced to the
caller as an error, and in that case the scoring results already computed in
memory are **not** returned (the failure discards the ranking from the
caller's view); only a successful write — or a run with logging disabled —
returns the ranking. -/
theorem log_write_failure_amended (rules : Rules) (rows : List PatientRow)
    (wOk : Bool) :
    Engine.sort_patients_io rules rows true false
      = Except.error Engine.csvWriteError ∧
    Engine.sort_patients_io rules rows true true
      = Except.ok (Engine.sort_patients rules rows) ∧
    Engine.sort_patients_io rules rows false wOk
      = Except.ok (Engine.sort_patients rules rows) :=
  ⟨rfl, rfl, rfl⟩

/-- C10: A medications or preexisting-conditions exclusion rule with an empty
target list never excludes any patient and never produces an exclusion-log
line: both evaluators return `0.0` on an empty target list, violation for
these types needs a value strictly greater than `0.0`, and erasing all such
exclusion entries leaves the entire run (scores, ranking and both logs)
unchanged. -/
theorem empty_target_exclusions_spec (rules : Rules) (rows : List PatientRow)
    (p : Patient) :
    Engine.medications p [] = 0 ∧
    Engine.preexisting_conditions p [] = 0 ∧
    violates p (.medications []) = false ∧
    violates p (.preexisting_conditions []) = false ∧
    Engine.sort_patients
        { rules with exclusion_criterium :=
            rules.exclusion_criterium.filter (fun r => ! hasEmptyTargets r) } rows
      = Engine.sort_patients rules rows :=
  ⟨rfl, rfl, rfl, rfl, sort_patients_filter_emptyTargets rules rows⟩

/-- C1: For every patient in the ranked output of a run, the final score is
the weighted inclusion sum — over the inclusion entries in document order,
evaluator value times weight, starting from `0.0` — whenever no exclusion
rule is violated; and exactly `0.0`, overwriting any accumulated inclusion
score, whenever some exclusion rule is violated. -/
theorem final_score_spec (rules : Rules) (rows : List PatientRow) (q : Patient)
    (hq : q ∈ (Engine.sort_patients rules rows).1) :
    q.score = if rules.exclusion_criterium.any (violates q) then 0
      else inclusionSum rules q := by
  rw [sort_patients_eq] at hq
  have hq' := List.mem_mergeSort.mp hq
  simp only [scoredPatients, List.mem_map] at hq'
  obtain ⟨p, hp, rfl⟩ := hq'
  simp only [violates_update, inclusionSum_update]
  rfl

/-- C1 witness: the theorem applied to a concrete one-patient, one-rule run
(60-year-old scored against an age-at-least-50 inclusion rule of weight 1). -/
theorem final_score_spec_witness :
    wPatient ∈ (Engine.sort_patients wRules [wRow]).1 ∧
    wPatient.score = if wRules.exclusion_criterium.any (violates wPatient) then 0
      else inclusionSum wRules wPatient := by
  have hage : Engine.age { patient_index := 0, patient_data := wRow, score := 0 }
      (some 50) none = 1 := by decide
  have hfs : finalScore wRules { patient_index := 0, patient_data := wRow, score := 0 }
      = 1 := by
    simp [finalScore, wRules, inclusionSum, ruleValue, hage]
  have hmk : Engine.mkPatients [wRow]
      = [{ patient_index := 0, patient_data := wRow, score := 0 }] := rfl
  have hsp : scoredPatients wRules [wRow] = [wPatient] := by
    simp only [scoredPatients, hmk, List.map_cons, List.map_nil]
    rw [hfs]
    rfl
  have hmem : wPatient ∈ (Engine.sort_patients wRules [wRow]).1 := by
    rw [sort_patients_eq]
    rw [List.mem_mergeSort, hsp]
    exact List.mem_singleton.mpr rfl
  exact ⟨hmem, final_score_spec wRules [wRow] wPatient hmem⟩

/-- Two distinct members of a list occur in one of the two orders as a pair
sublist. -/
theorem mem_pair_sublist {α : Type} {a b : α} :
    ∀ {l : List α}, a ∈ l → b ∈ l → a ≠ b →
      List.Sublist [a, b] l ∨ List.Sublist [b, a] l := by
  intro l
  induction l with
  | nil => intro ha _ _; exact absurd ha (by simp)
  | cons c t ih =>
    intro ha hb hne
    rcases List.mem_cons.mp ha with rfl | hat
    · have hbt : b ∈ t := by
        rcases List.mem_cons.mp hb with rfl | h
        · exact absurd rfl hne
        · exact h
      exact Or.inl (List.cons_sublist_cons.mpr (List.singleton_sublist.mpr hbt))
    · rcases List.mem_cons.mp hb with rfl | hbt
      · exact Or.inr (List.cons_sublist_cons.mpr (List.singleton_sublist.mpr hat))
      · rcases ih hat hbt hne with h | h
        · exact Or.inl (List.Sublist.cons c h)
        · exact Or.inr (List.Sublist.cons c h)

/-- In a duplicate-free list, a pair cannot occur as a sublist in both
orders unless its two elements are equal. -/
theorem pair_sublist_asymm {α : Type} {a b : α} :
    ∀ {l : List α}, l.Nodup → List.Sublist [a, b] l → List.Sublist [b, a] l →
      a = b := by
  intro l
  induction l with
  | nil => intro _ h1 _; exact absurd h1 (by simp)
  | cons c t ih =>
    intro hnd h1 h2
    obtain ⟨hct, hndt⟩ := List.nodup_cons.mp hnd
    cases h1 with
    | cons _ h1' =>
      cases h2 with
      | cons _ h2' => exact ih hndt h1' h2'
      | cons₂ h2' => exact absurd (h1'.subset (by simp)) hct
    | cons₂ h1' =>
      cases h2 with
      | cons _ h2' => exact absurd (h2'.subset (by simp)) hct
      | cons₂ h2' => rfl

/-- The scored patients carry strictly increasing ingestion indices. -/
theorem scoredPatients_index_pairwise (rules : Rules) (rows : List PatientRow) :
    (scoredPatients rules rows).Pairwise
      (fun a b => a.patient_index < b.patient_index) := by
  have h1 : (scoredPatients rules rows).map (fun p => p.patient_index)
      = List.range rows.length := by
    simp only [scoredPatients, List.map_map]
    have h : ((fun p : Patient => p.patient_index)
        ∘ fun p => { p with score := finalScore rules p })
        = fun p : Patient => p.patient_index := rfl
    rw [h, mkPatients_index_map]
  have h2 := List.pairwise_lt_range rows.length
  rw [← h1] at h2
  exact List.pairwise_map.mp h2

/-- The scored patients are pairwise distinct (their indices differ). -/
theorem scoredPatients_nodup (rules : Rules) (rows : List PatientRow) :
    (scoredPatients rules rows).Nodup :=
  (scoredPatients_index_pairwise rules rows).imp (fun h heq => by
    rw [heq] at h
    exact lt_irrefl _ h)

/-- C5: The returned patient list is sorted by score in descending order, and
any two patients with identical final scores appear in their original
ingestion (`patient_index`) order. -/
theorem ranking_sorted_stable (rules : Rules) (rows : List PatientRow) :
    (Engine.sort_patients rules rows).1.Pairwise (fun a b =>
      b.score ≤ a.score ∧
        (a.score = b.score → a.patient_index < b.patient_index)) := by
  rw [sort_patients_eq]
  have htrans : ∀ a b c : Patient,
      (fun a b : Patient => decide (b.score ≤ a.score)) a b = true →
      (fun a b : Patient => decide (b.score ≤ a.score)) b c = true →
      (fun a b : Patient => decide (b.score ≤ a.score)) a c = true := by
    intro a b c hab hbc
    simp only [decide_eq_true_eq] at hab hbc ⊢
    exact le_trans hbc hab
  have htotal : ∀ a b : Patient,
      ((fun a b : Patient => decide (b.score ≤ a.score)) a b
        || (fun a b : Patient => decide (b.score ≤ a.score)) b a) = true := by
    intro a b
    simp only [Bool.or_eq_true, decide_eq_true_eq]
    exact le_total b.score a.score
  have hidx := scoredPatients_index_pairwise rules rows
  have hnd := scoredPatients_nodup rules rows
  have hsorted := List.sorted_mergeSort htrans htotal (scoredPatients rules rows)
  have hndm : ((scoredPatients rules rows).mergeSort
      (fun a b : Patient => decide (b.score ≤ a.score))).Nodup :=
    (List.mergeSort_perm (scoredPatients rules rows) _).nodup_iff.mpr hnd
  rw [List.pairwise_iff_forall_sublist]
  intro a b hab
  constructor
  · have h := List.pairwise_iff_forall_sublist.mp hsorted hab
    simpa using h
  · intro heq
    have hamem : a ∈ scoredPatients rules rows :=
      List.mem_mergeSort.mp (hab.subset (by simp))
    have hbmem : b ∈ scoredPatients rules rows :=
      List.mem_mergeSort.mp (hab.subset (by simp))
    have hne : a ≠ b := by
      rintro rfl
      exact (List.pairwise_iff_forall_sublist.mp hndm hab) rfl
    rcases mem_pair_sublist hamem hbmem hne with h | h
    · exact List.pairwise_iff_forall_sublist.mp hidx h
    · have hba : (fun a b : Patient => decide (b.score ≤ a.score)) b a = true := by
        simp only [decide_eq_true_eq]
        exact le_of_eq heq
      have h2 := List.pair_sublist_mergeSort htrans htotal hba h
      exact absurd (pair_sublist_asymm hndm hab h2) hne
